import Mathlib

/-!
Shallow embedding of the integrate-and-fire neuron simulator
(IFneuron.py together with its driver main_simulation.py).

Modelling conventions:
* Python floats are modelled as rationals (ℚ); `np.exp` is an abstract
  function `E : ℚ → ℚ` passed explicitly to every definition that needs it,
  so that every statement is proved for an arbitrary exponential.
* Neuron object references (the entries of `IFneuron.receptors`) are
  modelled as indices into the roster list (the network), following the
  registry-handle representation; an index that misses the roster
  contributes nothing (a dangling reference cannot arise in the Python
  source, where receptors hold live object references).
* Python exceptions are modelled by returning `Option PyErr` next to the
  mutated state: an exception aborts the remaining statements of the
  call but the field writes already performed are kept, exactly as an
  exception propagating out of a Python method leaves the object.
* The uninitialized `self.FIFO` attribute (never assigned by `__init__`,
  assigned from outside by the driver) is modelled as an outer `Option`:
  `none` = attribute absent (reading it raises AttributeError),
  `some none` = the attribute holds Python `None`,
  `some (some l)` = the attribute holds an array with contents `l`.
* `scipy.stats.truncnorm(...)` freezing performs no argument validation;
  the Python-level division `(a - mu) / sigma` raises ZeroDivisionError at
  configuration time when sigma = 0, while an out-of-domain frozen
  distribution (scale not positive, or lower bound not below upper bound)
  raises ValueError only at the first `.rvs` call.  The stochastic draw
  itself is modelled by a caller-supplied stream `spontDraws` consumed at
  index `spontIdx` (the substitutable random source).
* `self._dt_act_ms` is initialized to `None` in the source; every read of
  it is preceded (in the same call) by a write guarded by the same
  `_has_spiked` flag, so it is modelled as a plain rational initialized
  to 0.
-/

/-- Python exceptions that the modelled code can raise. -/
inductive PyErr where
  /-- AttributeError: the object has no attribute FIFO. -/
  | attributeErrorFIFO : PyErr
  /-- AttributeError: None has no attribute rvs. -/
  | attributeErrorRvs : PyErr
  /-- IndexError: assignment to index 0 of an empty array. -/
  | indexError : PyErr
  /-- ZeroDivisionError from (a - mu) / sigma with sigma = 0. -/
  | zeroDivisionError : PyErr
  /-- ValueError raised by scipy rvs when the frozen distribution
  parameters are out of domain. -/
  | valueErrorDomain : PyErr
deriving DecidableEq

/-- The dual-exponential kernel dblexp of IFneuron.py:
returns 0 for a negative time difference, otherwise
amp * ( -exp(-tdiff/tau_rise) + exp(-tdiff/tau_decay) ). -/
def dblexp (E : ℚ → ℚ) (amp tau_rise tau_decay tdiff : ℚ) : ℚ :=
  if tdiff < 0 then 0
  else amp * (-(E (-tdiff / tau_rise)) + E (-tdiff / tau_decay))

/-- State of one IFneuron object; field names follow the Python class. -/
structure IFneuron where
  id : String
  t_directstim_ms : List ℚ
  Vm_mV : ℚ
  Vrest_mV : ℚ
  Vact_mV : ℚ
  Vahp_mV : ℚ
  tau_AHP_ms : ℚ
  tau_PSPr : ℚ
  tau_PSPd : ℚ
  vPSP : ℚ
  tau_spont_mean_stdev_ms : ℚ × ℚ
  t_spont_next : ℚ
  /-- The frozen truncnorm object: `none` is Python None; `some (mu, s)`
  records the (loc, scale) parameters fixed when the distribution was
  frozen by set_spontaneous_activity. -/
  dt_spont_dist : Option (ℚ × ℚ)
  receptors : List (ℕ × ℚ)
  t_ms : ℚ
  hs_cache : Bool
  in_absref : Bool
  t_act_ms : List ℚ
  dt_act_cache : ℚ
  t_recorded_ms : List ℚ
  Vm_recorded : List ℚ
  /-- The FIFO attribute, not set by the constructor (outer none). -/
  FIFO : Option (Option (List ℚ))
  /-- Substitutable random source backing dt_spont_dist.rvs. -/
  spontDraws : ℕ → ℚ
  spontIdx : ℕ

/-- The roster: neurons addressed by index (registry handles). -/
abbrev Net := List IFneuron

namespace IFneuron

/-- The constructor IFneuron.__init__.  Note that it assigns no FIFO
attribute (outer none): the driver assigns it from outside the class. -/
def mkIFneuron (id : String) : IFneuron where
  id := id
  t_directstim_ms := []
  Vm_mV := -60
  Vrest_mV := -60
  Vact_mV := -50
  Vahp_mV := -20
  tau_AHP_ms := 30
  tau_PSPr := 5
  tau_PSPd := 25
  vPSP := 20
  tau_spont_mean_stdev_ms := (0, 0)
  t_spont_next := -1
  dt_spont_dist := none
  receptors := []
  t_ms := 0
  hs_cache := false
  in_absref := false
  t_act_ms := []
  dt_act_cache := 0
  t_recorded_ms := []
  Vm_recorded := []
  FIFO := none
  spontDraws := fun _ => 0
  spontIdx := 0

/-- IFneuron.attach_direct_stim. -/
def attach_direct_stim (n : IFneuron) (t_ms : ℚ) : IFneuron :=
  { n with t_directstim_ms := n.t_directstim_ms ++ [t_ms] }

/-- IFneuron.set_spontaneous_activity: stores the pair, then computes
(a - mu) / sigma, (b - mu) / sigma and freezes the truncnorm.  With
sigma = 0 the division raises ZeroDivisionError (after the pair was
stored); otherwise the frozen object is created without validation. -/
def set_spontaneous_activity (n : IFneuron) (mean_stdev : ℚ × ℚ) :
    IFneuron × Option PyErr :=
  let n := { n with tau_spont_mean_stdev_ms := mean_stdev }
  if mean_stdev.2 = 0 then (n, some PyErr.zeroDivisionError)
  else ({ n with dt_spont_dist := some mean_stdev }, none)

/-- IFneuron.record. -/
def record (n : IFneuron) (t_ms : ℚ) : IFneuron :=
  { n with t_recorded_ms := n.t_recorded_ms ++ [t_ms],
           Vm_recorded := n.Vm_recorded ++ [n.Vm_mV] }

/-- IFneuron.has_spiked: refreshes the _has_spiked cache from the spike
list and returns it. -/
def has_spiked (n : IFneuron) : Bool × IFneuron :=
  let b := !n.t_act_ms.isEmpty
  (b, { n with hs_cache := b })

/-- IFneuron.dt_act_ms: when the cached _has_spiked flag is set, caches
and returns t - t_act_ms[-1]; otherwise the large sentinel. -/
def dt_act_ms (n : IFneuron) (t_ms : ℚ) : ℚ × IFneuron :=
  if n.hs_cache then
    let d := t_ms - n.t_act_ms.getLastD 0
    (d, { n with dt_act_cache := d })
  else (99999999.9, n)

/-- IFneuron.vSpike_t: recomputes in_absref from the cached gap and
returns the flat 60.0 plateau inside the absolute refractory window. -/
def vSpike_t (n : IFneuron) : ℚ × IFneuron :=
  if !n.hs_cache then (0, n)
  else
    let r := n.dt_act_cache ≤ 1
    (if r then 60 else 0, { n with in_absref := r })

/-- IFneuron.vAHP_t: single exponential decay from the AHP peak,
gated by the cached spike flag and the refractory flag. -/
def vAHP_t (E : ℚ → ℚ) (n : IFneuron) : ℚ :=
  if !n.hs_cache then 0
  else if n.in_absref then 0
  else n.Vahp_mV * E (-n.dt_act_cache / n.tau_AHP_ms)

/-- IFneuron.vPSP_t: iterates the receptor list, calling has_spiked and
dt_act_ms on each source (which write the source's caches) and summing
the dual-exponential contributions.  Parameters tau_PSPr, tau_PSPd and
vPSP of the receiving neuron are passed in, receptors resolve through
the roster. -/
def vPSP_t (E : ℚ → ℚ) (t_ms taur taud vamp : ℚ) :
    List (ℕ × ℚ) → Net → ℚ × Net
  | [], net => (0, net)
  | (j, weight) :: rs, net =>
    match net[j]? with
    | none => vPSP_t E t_ms taur taud vamp rs net
    | some src =>
      let (b, src) := src.has_spiked
      if b then
        let (dtPSP, src) := src.dt_act_ms t_ms
        let net := net.set j src
        let (s, net) := vPSP_t E t_ms taur taud vamp rs net
        (dblexp E (weight * vamp) taur taud dtPSP + s, net)
      else
        let net := net.set j src
        vPSP_t E t_ms taur taud vamp rs net

/-- Tail of IFneuron.update_Vm (source lines 147-150): touch the FIFO
sample buffer — reading the attribute raises AttributeError if the
driver never assigned it; rolling a nonempty array right and writing
its head slot, an empty array raising IndexError — then record if the
step is marked for recording. -/
def fifo_and_record (t_ms : ℚ) (recording : Bool) (m : IFneuron) :
    IFneuron × Option PyErr :=
  match m.FIFO with
  | none => (m, some PyErr.attributeErrorFIFO)
  | some none => (if recording then m.record t_ms else m, none)
  | some (some l) =>
    match l with
    | [] => (m, some PyErr.indexError)
    | _ =>
      let m := { m with
        FIFO := some (some ((m.Vm_mV - m.Vrest_mV) :: l.dropLast)) }
      (if recording then m.record t_ms else m, none)

/-- IFneuron.update_Vm acting on roster entry i: refreshes the caches,
computes the three contributions in the source's fixed order, assigns
Vm_mV, then touches the FIFO sample buffer (raising AttributeError if
the attribute was never assigned, with the Vm_mV write already done)
and finally records if requested. -/
def update_Vm (E : ℚ → ℚ) (t_ms : ℚ) (recording : Bool) (i : ℕ)
    (net : Net) : Net × Option PyErr :=
  match net[i]? with
  | none => (net, none)
  | some n =>
    let (b, n) := n.has_spiked
    let n := if b then (n.dt_act_ms t_ms).2 else n
    let (vSpike_t, n) := n.vSpike_t
    let vAHP_t := vAHP_t E n
    let net := net.set i n
    let (vPSP_t, net) := vPSP_t E t_ms n.tau_PSPr n.tau_PSPd n.vPSP n.receptors net
    match net[i]? with
    | none => (net, none)
    | some m =>
      let m := { m with Vm_mV := m.Vrest_mV + vSpike_t + vAHP_t + vPSP_t }
      let (m2, err) := fifo_and_record t_ms recording m
      (net.set i m2, err)

/-- IFneuron.detect_threshold on roster entry i. -/
def detect_threshold (t_ms : ℚ) (i : ℕ) (net : Net) : Net :=
  match net[i]? with
  | none => net
  | some n =>
    if n.in_absref then net
    else if n.Vact_mV ≤ n.Vm_mV then
      net.set i { n with t_act_ms := n.t_act_ms ++ [t_ms] }
    else net

/-- IFneuron.spontaneous_activity on roster entry i.  The rvs call on a
missing distribution raises AttributeError; on a frozen distribution
whose parameters are out of domain (scale not positive, or lower
truncation bound not strictly below the upper one, i.e. loc not
positive) it raises ValueError — in both cases after the spike append
already happened. -/
def spontaneous_activity (t_ms : ℚ) (i : ℕ) (net : Net) :
    Net × Option PyErr :=
  match net[i]? with
  | none => (net, none)
  | some n =>
    if n.in_absref then (net, none)
    else if n.tau_spont_mean_stdev_ms.1 = 0 then (net, none)
    else if n.t_spont_next ≤ t_ms then
      let n := if 0 ≤ n.t_spont_next then
          { n with t_act_ms := n.t_act_ms ++ [t_ms] } else n
      match n.dt_spont_dist with
      | none => (net.set i n, some PyErr.attributeErrorRvs)
      | some (mu, sigma) =>
        if 0 < sigma ∧ 0 < mu then
          let dt_spont := n.spontDraws n.spontIdx
          (net.set i { n with spontIdx := n.spontIdx + 1,
                              t_spont_next := t_ms + dt_spont }, none)
        else (net.set i n, some PyErr.valueErrorDomain)
    else (net, none)

/-- Step 1 of IFneuron.update: consume at most one due entry of the
direct-stimulation schedule, appending the scheduled time itself to the
spike list. -/
def direct_stim_step (t_ms : ℚ) (n : IFneuron) : IFneuron :=
  match n.t_directstim_ms with
  | [] => n
  | tfire :: rest =>
    if tfire ≤ t_ms then
      { n with t_directstim_ms := rest, t_act_ms := n.t_act_ms ++ [tfire] }
    else n

/-- Exception propagation: a raised exception aborts the remaining
statements of update, keeping the writes already performed. -/
def errSeq (step : Net × Option PyErr) (k : Net → Net × Option PyErr) :
    Net × Option PyErr :=
  match step with
  | (net, some e) => (net, some e)
  | (net, none) => k net

/-- Step 3 of IFneuron.update: remember the update time. -/
def finish_update (t_ms : ℚ) (i : ℕ) (net : Net) : Net × Option PyErr :=
  match net[i]? with
  | none => (net, none)
  | some n => (net.set i { n with t_ms := t_ms }, none)

/-- IFneuron.update on roster entry i: early return on a time earlier
than the last update, then direct stimulation, potential update,
threshold detection, spontaneous activity, and last-update bookkeeping.
An exception aborts the remaining statements, keeping prior writes. -/
def update (E : ℚ → ℚ) (t_ms : ℚ) (recording : Bool) (i : ℕ)
    (net : Net) : Net × Option PyErr :=
  match net[i]? with
  | none => (net, none)
  | some n =>
    if t_ms - n.t_ms < 0 then (net, none)
    else
      errSeq (update_Vm E t_ms recording i
          (net.set i (direct_stim_step t_ms n))) fun net =>
        errSeq (spontaneous_activity t_ms i
            (detect_threshold t_ms i net)) fun net =>
          finish_update t_ms i net

/-- What the frozen FIFO test can raise, as a function of the attribute
contents. -/
def fifoErr (m : IFneuron) : Option PyErr :=
  match m.FIFO with
  | none => some PyErr.attributeErrorFIFO
  | some none => none
  | some (some l) => if l.isEmpty then some PyErr.indexError else none

/-- The exponential instance used by concrete witnesses: statements are
proved for an arbitrary E, witnesses evaluate at this one. -/
def Ezero : ℚ → ℚ := fun _ => 0

end IFneuron

namespace IFneuron

/-- Gap from the update time to the most recent recorded spike (the last
entry of the spike list). -/
def spikeGap (t_ms : ℚ) (n : IFneuron) : ℚ := t_ms - n.t_act_ms.getLastD 0

/-- The self-afterpotential term as the spec states it: the fixed 60.0
plateau when the neuron has spiked and the gap is at most 1.0 ms. -/
def selfAfterpotentialTerm (t_ms : ℚ) (n : IFneuron) : ℚ :=
  if ¬ n.t_act_ms.isEmpty ∧ spikeGap t_ms n ≤ 1 then 60 else 0

/-- The after-hyperpolarization term as the spec states it: the AHP peak
decayed exponentially at the gap, outside the refractory window. -/
def ahpTerm (E : ℚ → ℚ) (t_ms : ℚ) (n : IFneuron) : ℚ :=
  if ¬ n.t_act_ms.isEmpty ∧ ¬ spikeGap t_ms n ≤ 1 then
    n.Vahp_mV * E (-spikeGap t_ms n / n.tau_AHP_ms)
  else 0

/-- One receptor edge's postsynaptic contribution, as a function of the
source's spike list alone. -/
def pspTerm (E : ℚ → ℚ) (t_ms taur taud vamp weight : ℚ)
    (acts : List ℚ) : ℚ :=
  if acts.isEmpty then 0
  else dblexp E (weight * vamp) taur taud (t_ms - acts.getLastD 0)

/-- The postsynaptic sum as the spec states it: over all receptor edges,
the dual-exponential kernel at amplitude weight * unit amplitude and the
time since the source's last spike, sources that never spiked
contributing nothing. -/
def pspSum (E : ℚ → ℚ) (t_ms taur taud vamp : ℚ)
    (rs : List (ℕ × ℚ)) (net : Net) : ℚ :=
  (rs.map (fun r =>
    match net[r.1]? with
    | none => 0
    | some src => pspTerm E t_ms taur taud vamp r.2 src.t_act_ms)).sum

/-- Erase the two per-call scratch caches; two neurons equal after
scrubbing differ at most in those caches. -/
def scrub (n : IFneuron) : IFneuron :=
  { n with hs_cache := false, dt_act_cache := 0 }

/-- The second roster differs from the first at most in the scratch
caches of its entries. -/
def CacheOnly (net net2 : Net) : Prop :=
  ∀ j : ℕ, net2[j]?.map scrub = net[j]?.map scrub

/-- Concrete neurons and rosters used by witnesses and counterexamples.
Parameter overrides model the documented pre-simulation configuration
(defaults may be overridden; the driver assigns FIFO = None). -/
def nW1 : IFneuron :=
  { mkIFneuron ("W1") with t_act_ms := [3], receptors := [(0, 1)], FIFO := some none }

/-- Neuron whose last update was at 100 while an overdue stimulus is
still scheduled. -/
def nC3 : IFneuron :=
  { mkIFneuron ("C3") with t_ms := 100, t_directstim_ms := [3], FIFO := some none }

/-- Neuron with two due stimulation times. -/
def nW3 : IFneuron :=
  { mkIFneuron ("W3") with t_directstim_ms := [2, 7], FIFO := some none }

/-- Neuron that fires whenever not refractory: threshold dropped to the
resting potential and the AHP peak set to 0, with two scheduled stimuli
of which one will be consumed late. -/
def nC4 : IFneuron :=
  { mkIFneuron ("C4") with Vact_mV := -60, Vahp_mV := 0, t_directstim_ms := [1, 2], FIFO := some none }

/-- Neuron one millisecond past its only spike, with a raised resting
potential so the potential sits far above threshold. -/
def nW4 : IFneuron :=
  { mkIFneuron ("W4") with Vrest_mV := -40, t_act_ms := [9], t_ms := 9, FIFO := some none }

/-- Neuron whose resting potential exceeds the firing threshold, so the
first update records a threshold spike. -/
def nC5 : IFneuron :=
  { mkIFneuron ("C5") with Vrest_mV := -40, FIFO := some none }

/-- Neuron that spiked at 3 and was last updated then. -/
def nW5 : IFneuron :=
  { mkIFneuron ("W5") with t_act_ms := [3], t_ms := 3, FIFO := some none }

/-- Same configuration as nC4, for the spike-order trace. -/
def nC6 : IFneuron :=
  { mkIFneuron ("C6") with Vact_mV := -60, Vahp_mV := 0, t_directstim_ms := [1, 2], FIFO := some none }

/-- Neuron with a sorted spike history and a timely scheduled stimulus. -/
def nW6 : IFneuron :=
  { mkIFneuron ("W6") with t_act_ms := [3, 4], t_ms := 4, t_directstim_ms := [5], FIFO := some none }

/-- Source neuron with a recorded spike whose scratch caches are cold. -/
def mC7 : IFneuron :=
  { mkIFneuron ("M7") with t_act_ms := [3] }

/-- Receiving neuron wired to roster entry 0. -/
def nC7 : IFneuron :=
  { mkIFneuron ("N7") with receptors := [(0, 1)], FIFO := some none }

/-- Two-neuron roster: source at index 0, receiver at index 1. -/
def netC7 : Net := [mC7, nC7]

/-- Plain neuron with the FIFO attribute assigned. -/
def nC8 : IFneuron :=
  { mkIFneuron ("C8") with FIFO := some none }

/-- Plain neuron with the FIFO attribute assigned. -/
def nW8 : IFneuron :=
  { mkIFneuron ("W8") with FIFO := some none }

/-- Neuron configured with a negative standard deviation: the frozen
distribution parameters are invalid but no error has surfaced yet. -/
def nW9 : IFneuron :=
  { mkIFneuron ("W9") with tau_spont_mean_stdev_ms := (5, -1), dt_spont_dist := some (5, -1), FIFO := some none }

theorem getIdx_lt {net : Net} {i : ℕ} {n : IFneuron}
    (h : net[i]? = some n) : i < net.length := by
  by_contra hge
  rw [List.getElem?_eq_none (Nat.le_of_not_lt hge)] at h
  cases h

theorem CacheOnly.refl (net : Net) : CacheOnly net net := fun _ => rfl

theorem CacheOnly.trans {net1 net2 net3 : Net} (h12 : CacheOnly net1 net2)
    (h23 : CacheOnly net2 net3) : CacheOnly net1 net3 :=
  fun j => (h23 j).trans (h12 j)

theorem scrub_has_spiked (n : IFneuron) : scrub (n.has_spiked).2 = scrub n := rfl

theorem scrub_dt_act_ms (n : IFneuron) (t : ℚ) :
    scrub (n.dt_act_ms t).2 = scrub n := by
  unfold dt_act_ms
  split <;> rfl

theorem t_act_scrub (n : IFneuron) : (scrub n).t_act_ms = n.t_act_ms := rfl

theorem CacheOnly.t_act {net net2 : Net} (h : CacheOnly net net2) (j : ℕ) :
    net2[j]?.map t_act_ms = net[j]?.map t_act_ms := by
  have h1 := congrArg (Option.map t_act_ms) (h j)
  simpa [Option.map_map, Function.comp] using h1

theorem CacheOnly.set {net : Net} {j : ℕ} {src src2 : IFneuron}
    (hj : net[j]? = some src) (hs : scrub src2 = scrub src) :
    CacheOnly net (net.set j src2) := by
  intro k
  rcases eq_or_ne j k with rfl | hne
  · have hlen : j < net.length := by
      by_contra hge
      simp [List.getElem?_eq_none (Nat.le_of_not_lt hge)] at hj
    rw [List.getElem?_set_eq_of_lt _ hlen, hj]
    simp [hs]
  · rw [List.getElem?_set_ne hne]

theorem pspSum_congr_acts (E : ℚ → ℚ) (t a b c : ℚ) (rs : List (ℕ × ℚ))
    {net net2 : Net}
    (h : ∀ j : ℕ, net2[j]?.map t_act_ms = net[j]?.map t_act_ms) :
    pspSum E t a b c rs net2 = pspSum E t a b c rs net := by
  unfold pspSum
  congr 1
  refine List.map_congr_left ?_
  intro r _
  have := h r.1
  cases h2 : net2[r.1]? with
  | none =>
    rw [h2] at this
    cases hn : net[r.1]? with
    | none => rfl
    | some v => rw [hn] at this; simp at this
  | some v2 =>
    rw [h2] at this
    cases hn : net[r.1]? with
    | none => rw [hn] at this; simp at this
    | some v =>
      rw [hn] at this
      simp only [Option.map_some', Option.some.injEq] at this
      simp only [this]

theorem pspSum_congr (E : ℚ → ℚ) (t a b c : ℚ) (rs : List (ℕ × ℚ))
    {net net2 : Net} (h : CacheOnly net net2) :
    pspSum E t a b c rs net2 = pspSum E t a b c rs net :=
  pspSum_congr_acts E t a b c rs h.t_act

/-- Setting one entry whose spike list is unchanged leaves the spike
lists of the whole roster unchanged. -/
theorem tacts_set {net : Net} {i : ℕ} {n x : IFneuron}
    (h : net[i]? = some n) (hx : x.t_act_ms = n.t_act_ms) :
    ∀ j : ℕ, ((net.set i x)[j]?).map t_act_ms = (net[j]?).map t_act_ms := by
  intro k
  rcases eq_or_ne i k with rfl | hne
  · rw [List.getElem?_set_eq_of_lt _ (getIdx_lt h), h]
    simp [hx]
  · rw [List.getElem?_set_ne hne]

end IFneuron

namespace IFneuron

theorem vPSP_t_cons_none {net : Net} {j : ℕ} {w : ℚ}
    (E : ℚ → ℚ) (t a b c : ℚ) (rs : List (ℕ × ℚ)) (hj : net[j]? = none) :
    vPSP_t E t a b c ((j, w) :: rs) net = vPSP_t E t a b c rs net := by
  simp [vPSP_t, hj]

theorem vPSP_t_cons_empty {net : Net} {j : ℕ} {w : ℚ} {src : IFneuron}
    (E : ℚ → ℚ) (t a b c : ℚ) (rs : List (ℕ × ℚ))
    (hj : net[j]? = some src) (he : src.t_act_ms.isEmpty) :
    vPSP_t E t a b c ((j, w) :: rs) net =
      vPSP_t E t a b c rs (net.set j { src with hs_cache := false }) := by
  simp [vPSP_t, hj, has_spiked, he]

theorem vPSP_t_cons_spiked {net : Net} {j : ℕ} {w : ℚ} {src : IFneuron}
    (E : ℚ → ℚ) (t a b c : ℚ) (rs : List (ℕ × ℚ))
    (hj : net[j]? = some src) (he : ¬ src.t_act_ms.isEmpty) :
    vPSP_t E t a b c ((j, w) :: rs) net =
      (dblexp E (w * c) a b (t - src.t_act_ms.getLastD 0) +
        (vPSP_t E t a b c rs
          (net.set j { src with hs_cache := true, dt_act_cache := t - src.t_act_ms.getLastD 0 })).1,
       (vPSP_t E t a b c rs
          (net.set j { src with hs_cache := true, dt_act_cache := t - src.t_act_ms.getLastD 0 })).2) := by
  simp [vPSP_t, hj, has_spiked, he, dt_act_ms]

theorem pspSum_cons (E : ℚ → ℚ) (t a b c : ℚ) (j : ℕ) (w : ℚ)
    (rs : List (ℕ × ℚ)) (net : Net) :
    pspSum E t a b c ((j, w) :: rs) net =
      (match net[j]? with
       | none => 0
       | some src => pspTerm E t a b c w src.t_act_ms) +
      pspSum E t a b c rs net := by
  simp [pspSum]

theorem vPSP_t_spec (E : ℚ → ℚ) (t a b c : ℚ) :
    ∀ (rs : List (ℕ × ℚ)) (net : Net),
      (vPSP_t E t a b c rs net).1 = pspSum E t a b c rs net ∧
      CacheOnly net (vPSP_t E t a b c rs net).2 := by
  intro rs
  induction rs with
  | nil =>
    intro net
    exact ⟨by simp [vPSP_t, pspSum], CacheOnly.refl net⟩
  | cons hd tl ih =>
    intro net
    obtain ⟨j, w⟩ := hd
    cases hj : net[j]? with
    | none =>
      rw [vPSP_t_cons_none E t a b c tl hj, pspSum_cons, hj]
      have h1 := ih net
      exact ⟨by rw [h1.1]; ring, h1.2⟩
    | some src =>
      by_cases he : src.t_act_ms.isEmpty
      · rw [vPSP_t_cons_empty E t a b c tl hj he, pspSum_cons, hj]
        set net1 := net.set j { src with hs_cache := false } with hnet1
        have hco : CacheOnly net net1 := CacheOnly.set hj rfl
        have h1 := ih net1
        refine ⟨?_, hco.trans h1.2⟩
        rw [h1.1, pspSum_congr E t a b c tl hco]
        simp [pspTerm, he]
      · rw [vPSP_t_cons_spiked E t a b c tl hj he, pspSum_cons, hj]
        set net1 := net.set j { src with hs_cache := true, dt_act_cache := t - src.t_act_ms.getLastD 0 } with hnet1
        have hco : CacheOnly net net1 := CacheOnly.set hj rfl
        have h1 := ih net1
        refine ⟨?_, hco.trans h1.2⟩
        rw [h1.1, pspSum_congr E t a b c tl hco]
        simp [pspTerm, he]

end IFneuron

namespace IFneuron

theorem CacheOnly.at_some {net net2 : Net} (h : CacheOnly net net2)
    {i : ℕ} {n : IFneuron} (hi : net[i]? = some n) :
    ∃ m, net2[i]? = some m ∧ scrub m = scrub n := by
  have h1 := h i
  rw [hi] at h1
  cases h2 : net2[i]? with
  | none => rw [h2] at h1; simp at h1
  | some m =>
    rw [h2] at h1
    simp only [Option.map_some', Option.some.injEq] at h1
    exact ⟨m, rfl, h1⟩

theorem CacheOnly.len {net net2 : Net} (h : CacheOnly net net2) :
    net2.length = net.length := by
  refine Nat.le_antisymm ?_ ?_
  · by_contra hlt
    have hlt2 : net.length < net2.length := Nat.lt_of_not_le hlt
    have h2 : net2[net.length]? = none → net2.length ≤ net.length := by
      intro hn
      by_contra hc
      rw [List.getElem?_eq_getElem hlt2] at hn
      cases hn
    have h1 := h net.length
    rw [List.getElem?_eq_none (Nat.le_refl _)] at h1
    simp only [Option.map_none', Option.map_eq_none'] at h1
    exact absurd (h2 h1) hlt
  · by_contra hlt
    have hlt2 : net2.length < net.length := Nat.lt_of_not_le hlt
    have h1 := h net2.length
    rw [List.getElem?_eq_none (Nat.le_refl _), List.getElem?_eq_getElem hlt2] at h1
    simp at h1

theorem scrub_fields {m n : IFneuron} (h : scrub m = scrub n) :
    m.t_act_ms = n.t_act_ms ∧ m.t_directstim_ms = n.t_directstim_ms ∧
    m.t_ms = n.t_ms ∧ m.Vact_mV = n.Vact_mV ∧ m.Vrest_mV = n.Vrest_mV ∧
    m.tau_spont_mean_stdev_ms = n.tau_spont_mean_stdev_ms ∧
    m.t_spont_next = n.t_spont_next ∧ m.dt_spont_dist = n.dt_spont_dist ∧
    m.spontIdx = n.spontIdx ∧ m.spontDraws = n.spontDraws ∧
    m.in_absref = n.in_absref ∧ m.FIFO = n.FIFO ∧
    m.t_recorded_ms = n.t_recorded_ms ∧ m.Vm_recorded = n.Vm_recorded ∧
    m.Vm_mV = n.Vm_mV ∧ m.receptors = n.receptors := by
  exact ⟨congrArg (fun x => x.t_act_ms) h, congrArg (fun x => x.t_directstim_ms) h,
    congrArg (fun x => x.t_ms) h, congrArg (fun x => x.Vact_mV) h,
    congrArg (fun x => x.Vrest_mV) h,
    congrArg (fun x => x.tau_spont_mean_stdev_ms) h,
    congrArg (fun x => x.t_spont_next) h, congrArg (fun x => x.dt_spont_dist) h,
    congrArg (fun x => x.spontIdx) h, congrArg (fun x => x.spontDraws) h,
    congrArg (fun x => x.in_absref) h, congrArg (fun x => x.FIFO) h,
    congrArg (fun x => x.t_recorded_ms) h, congrArg (fun x => x.Vm_recorded) h,
    congrArg (fun x => x.Vm_mV) h, congrArg (fun x => x.receptors) h⟩

end IFneuron

namespace IFneuron

theorem fifo_and_record_fields (t : ℚ) (recording : Bool) (m : IFneuron) :
    ((fifo_and_record t recording m).1).t_act_ms = m.t_act_ms ∧
    ((fifo_and_record t recording m).1).t_directstim_ms = m.t_directstim_ms ∧
    ((fifo_and_record t recording m).1).t_ms = m.t_ms ∧
    ((fifo_and_record t recording m).1).Vact_mV = m.Vact_mV ∧
    ((fifo_and_record t recording m).1).Vrest_mV = m.Vrest_mV ∧
    ((fifo_and_record t recording m).1).tau_spont_mean_stdev_ms
      = m.tau_spont_mean_stdev_ms ∧
    ((fifo_and_record t recording m).1).t_spont_next = m.t_spont_next ∧
    ((fifo_and_record t recording m).1).dt_spont_dist = m.dt_spont_dist ∧
    ((fifo_and_record t recording m).1).spontIdx = m.spontIdx ∧
    ((fifo_and_record t recording m).1).spontDraws = m.spontDraws ∧
    ((fifo_and_record t recording m).1).in_absref = m.in_absref ∧
    ((fifo_and_record t recording m).1).Vm_mV = m.Vm_mV ∧
    (fifo_and_record t recording m).2 = fifoErr m := by
  rcases hf : m.FIFO with _ | mf
  · simp [fifo_and_record, fifoErr, hf]
  · rcases mf with _ | l
    · cases recording <;> simp [fifo_and_record, fifoErr, hf, record]
    · rcases l with _ | ⟨a, l2⟩
      · simp [fifo_and_record, fifoErr, hf]
      · cases recording <;> simp [fifo_and_record, fifoErr, hf, record]

end IFneuron

namespace IFneuron

theorem set_fifo_run (t : ℚ) (recording : Bool) (i : ℕ) (net2 : Net)
    (m : IFneuron) (hlen2 : i < net2.length) :
    ∃ n2, ((net2.set i (fifo_and_record t recording m).1)[i]? = some n2) ∧
      n2.t_act_ms = m.t_act_ms ∧ n2.t_directstim_ms = m.t_directstim_ms ∧
      n2.t_ms = m.t_ms ∧ n2.Vact_mV = m.Vact_mV ∧ n2.Vrest_mV = m.Vrest_mV ∧
      n2.tau_spont_mean_stdev_ms = m.tau_spont_mean_stdev_ms ∧
      n2.t_spont_next = m.t_spont_next ∧ n2.dt_spont_dist = m.dt_spont_dist ∧
      n2.spontIdx = m.spontIdx ∧ n2.spontDraws = m.spontDraws ∧
      n2.in_absref = m.in_absref ∧ n2.Vm_mV = m.Vm_mV ∧
      (fifo_and_record t recording m).2 = fifoErr m ∧
      (net2.set i (fifo_and_record t recording m).1).length = net2.length := by
  obtain ⟨f1, f2, f3, f4, f5, f6, f7, f8, f9, f10, f11, f12, f13⟩ :=
    fifo_and_record_fields t recording m
  exact ⟨_, List.getElem?_set_eq_of_lt _ hlen2, f1, f2, f3, f4, f5, f6, f7,
    f8, f9, f10, f11, f12, f13, by rw [List.length_set]⟩

end IFneuron

namespace IFneuron

theorem update_Vm_run (E : ℚ → ℚ) (t : ℚ) (recording : Bool) {i : ℕ}
    {net : Net} {n : IFneuron} (h : net[i]? = some n) :
    ∃ n2, ((update_Vm E t recording i net).1)[i]? = some n2 ∧
      n2.t_act_ms = n.t_act_ms ∧
      n2.t_directstim_ms = n.t_directstim_ms ∧
      n2.t_ms = n.t_ms ∧
      n2.Vact_mV = n.Vact_mV ∧
      n2.Vrest_mV = n.Vrest_mV ∧
      n2.tau_spont_mean_stdev_ms = n.tau_spont_mean_stdev_ms ∧
      n2.t_spont_next = n.t_spont_next ∧
      n2.dt_spont_dist = n.dt_spont_dist ∧
      n2.spontIdx = n.spontIdx ∧
      n2.spontDraws = n.spontDraws ∧
      n2.in_absref = (if n.t_act_ms.isEmpty then n.in_absref
        else decide (spikeGap t n ≤ 1)) ∧
      n2.Vm_mV = n.Vrest_mV + selfAfterpotentialTerm t n + ahpTerm E t n +
        pspSum E t n.tau_PSPr n.tau_PSPd n.vPSP n.receptors net ∧
      (update_Vm E t recording i net).2 = fifoErr n ∧
      ((update_Vm E t recording i net).1).length = net.length ∧
      (∀ j : ℕ, j ≠ i →
        ((update_Vm E t recording i net).1)[j]?.map scrub
          = net[j]?.map scrub) := by
  have hlen := getIdx_lt h
  by_cases hb : n.t_act_ms.isEmpty
  · simp only [update_Vm, h, has_spiked, hb, Bool.not_true, Bool.false_eq_true,
      if_false, vSpike_t, Bool.not_false, if_true, vAHP_t]
    have hT : ∀ j : ℕ,
        ((net.set i { n with hs_cache := false })[j]?).map t_act_ms
          = (net[j]?).map t_act_ms := tacts_set h rfl
    obtain ⟨hfst, hco2⟩ := vPSP_t_spec E t n.tau_PSPr n.tau_PSPd n.vPSP
      n.receptors (net.set i { n with hs_cache := false })
    have hn1i : (net.set i { n with hs_cache := false })[i]?
        = some { n with hs_cache := false } :=
      List.getElem?_set_eq_of_lt _ hlen
    obtain ⟨m, hm, hsc⟩ := hco2.at_some hn1i
    rw [hm]
    simp only []
    have hL : (vPSP_t E t n.tau_PSPr n.tau_PSPd n.vPSP n.receptors
        (net.set i { n with hs_cache := false })).2.length = net.length := by
      rw [hco2.len, List.length_set]
    obtain ⟨s1, s2, s3, s4, s5, s6, s7, s8, s9, s10, s11, s12, s13, s14,
      s15, s16⟩ := scrub_fields hsc
    obtain ⟨n2, hn2, g1, g2, g3, g4, g5, g6, g7, g8, g9, g10, g11, g12,
      g14, g13⟩ := set_fifo_run t recording i _
        { m with Vm_mV := m.Vrest_mV + 0 + 0 +
          (vPSP_t E t n.tau_PSPr n.tau_PSPd n.vPSP n.receptors
            (net.set i { n with hs_cache := false })).1 }
        (by rw [hL]; exact hlen)
    have hfe : fifoErr m = fifoErr n := by
      unfold fifoErr
      rw [s12]
    refine ⟨n2, hn2, g1.trans s1, g2.trans s2, g3.trans s3, g4.trans s4,
      g5.trans s5, g6.trans s6, g7.trans s7, g8.trans s8, g9.trans s9,
      g10.trans s10, g11.trans s11, ?_, g14.trans hfe, g13.trans hL, ?_⟩
    · refine g12.trans ?_
      show m.Vrest_mV + 0 + 0 + _ = _
      rw [hfst, pspSum_congr_acts E t n.tau_PSPr n.tau_PSPd n.vPSP
        n.receptors hT, s5]
      simp [selfAfterpotentialTerm, ahpTerm, hb]
    · intro j hj
      rw [List.getElem?_set_ne (Ne.symm hj), hco2 j,
        List.getElem?_set_ne (Ne.symm hj)]
  · simp only [update_Vm, h, has_spiked, hb, Bool.not_false, if_true,
      dt_act_ms, vSpike_t, Bool.not_true, Bool.false_eq_true, if_false, vAHP_t]
    have hT : ∀ j : ℕ,
        ((net.set i { n with hs_cache := true, dt_act_cache := t - n.t_act_ms.getLastD 0, in_absref := decide (t - n.t_act_ms.getLastD 0 ≤ 1) })[j]?).map t_act_ms
          = (net[j]?).map t_act_ms := tacts_set h rfl
    obtain ⟨hfst, hco2⟩ := vPSP_t_spec E t n.tau_PSPr n.tau_PSPd n.vPSP
      n.receptors (net.set i { n with hs_cache := true, dt_act_cache := t - n.t_act_ms.getLastD 0, in_absref := decide (t - n.t_act_ms.getLastD 0 ≤ 1) })
    have hn1i : (net.set i { n with hs_cache := true, dt_act_cache := t - n.t_act_ms.getLastD 0, in_absref := decide (t - n.t_act_ms.getLastD 0 ≤ 1) })[i]?
        = some { n with hs_cache := true, dt_act_cache := t - n.t_act_ms.getLastD 0, in_absref := decide (t - n.t_act_ms.getLastD 0 ≤ 1) } :=
      List.getElem?_set_eq_of_lt _ hlen
    obtain ⟨m, hm, hsc⟩ := hco2.at_some hn1i
    rw [hm]
    simp only []
    have hL : (vPSP_t E t n.tau_PSPr n.tau_PSPd n.vPSP n.receptors
        (net.set i { n with hs_cache := true, dt_act_cache := t - n.t_act_ms.getLastD 0, in_absref := decide (t - n.t_act_ms.getLastD 0 ≤ 1) })).2.length = net.length := by
      rw [hco2.len, List.length_set]
    obtain ⟨s1, s2, s3, s4, s5, s6, s7, s8, s9, s10, s11, s12, s13, s14,
      s15, s16⟩ := scrub_fields hsc
    obtain ⟨n2, hn2, g1, g2, g3, g4, g5, g6, g7, g8, g9, g10, g11, g12,
      g14, g13⟩ := set_fifo_run t recording i _
        { m with Vm_mV := m.Vrest_mV + (if t - n.t_act_ms.getLastD 0 ≤ 1 then (60:ℚ) else 0) +
          (if decide (t - n.t_act_ms.getLastD 0 ≤ 1) = true then (0:ℚ)
            else n.Vahp_mV * E (-(t - n.t_act_ms.getLastD 0) / n.tau_AHP_ms)) +
          (vPSP_t E t n.tau_PSPr n.tau_PSPd n.vPSP n.receptors
            (net.set i { n with hs_cache := true, dt_act_cache := t - n.t_act_ms.getLastD 0, in_absref := decide (t - n.t_act_ms.getLastD 0 ≤ 1) })).1 }
        (by rw [hL]; exact hlen)
    have hfe : fifoErr m = fifoErr n := by
      unfold fifoErr
      rw [s12]
    refine ⟨n2, hn2, g1.trans s1, g2.trans s2, g3.trans s3, g4.trans s4,
      g5.trans s5, g6.trans s6, g7.trans s7, g8.trans s8, g9.trans s9,
      g10.trans s10, g11.trans s11, ?_, g14.trans hfe, g13.trans hL, ?_⟩
    · refine g12.trans ?_
      show m.Vrest_mV + _ + _ + _ = _
      rw [hfst, pspSum_congr_acts E t n.tau_PSPr n.tau_PSPd n.vPSP
        n.receptors hT, s5]
      by_cases hr : t - n.t_act_ms.getLastD 0 ≤ 1 <;>
        simp [selfAfterpotentialTerm, ahpTerm, spikeGap, hb, hr] <;>
        split_ifs <;> first | rfl | linarith
    · intro j hj
      rw [List.getElem?_set_ne (Ne.symm hj), hco2 j,
        List.getElem?_set_ne (Ne.symm hj)]

end IFneuron

namespace IFneuron

theorem errSeq_eq (p : Net × Option PyErr) (k : Net → Net × Option PyErr) :
    errSeq p k = match p.2 with
      | some e => (p.1, some e)
      | none => k p.1 := by
  rcases p with ⟨net, err⟩
  rcases err with _ | e <;> rfl

theorem finish_update_run {net : Net} {n : IFneuron} (t : ℚ) (i : ℕ)
    (h : net[i]? = some n) :
    finish_update t i net = (net.set i { n with t_ms := t }, none) := by
  unfold finish_update
  rw [h]

theorem detect_threshold_run {net : Net} {n : IFneuron} (t : ℚ) (i : ℕ)
    (h : net[i]? = some n) :
    detect_threshold t i net =
      (if n.in_absref = false ∧ n.Vact_mV ≤ n.Vm_mV
        then net.set i { n with t_act_ms := n.t_act_ms ++ [t] } else net) := by
  unfold detect_threshold
  rw [h]
  by_cases ha : n.in_absref <;> by_cases hv : n.Vact_mV ≤ n.Vm_mV <;>
    simp [ha, hv]

/-- The spontaneous-activity step's entry-level behavior: what the entry
becomes and which exception, if any, escapes. -/
theorem spontaneous_activity_run {net : Net} {n : IFneuron} (t : ℚ) (i : ℕ)
    (h : net[i]? = some n) :
    spontaneous_activity t i net =
      if n.in_absref = true then (net, none)
      else if n.tau_spont_mean_stdev_ms.1 = 0 then (net, none)
      else if n.t_spont_next ≤ t then
        (let napp := if 0 ≤ n.t_spont_next
            then { n with t_act_ms := n.t_act_ms ++ [t] } else n
         match n.dt_spont_dist with
         | none => (net.set i napp, some PyErr.attributeErrorRvs)
         | some (mu, sigma) =>
           if 0 < sigma ∧ 0 < mu then
             (net.set i { napp with spontIdx := napp.spontIdx + 1, t_spont_next := t + napp.spontDraws napp.spontIdx }, none)
           else (net.set i napp, some PyErr.valueErrorDomain))
      else (net, none) := by
  unfold spontaneous_activity
  rw [h]
  simp only []
  by_cases ha : n.in_absref = true
  · simp [ha]
  · simp only [ha, Bool.false_eq_true, if_false]
    by_cases hm0 : n.tau_spont_mean_stdev_ms.1 = 0
    · simp [hm0]
    · simp only [hm0, if_false]
      by_cases hnext : n.t_spont_next ≤ t
      · simp only [hnext, if_true]
        by_cases hnn : 0 ≤ n.t_spont_next <;>
          rcases hd : n.dt_spont_dist with _ | ⟨mu, sigma⟩ <;>
            simp [hnn, hd]
      · simp [hnext]

end IFneuron

namespace IFneuron

theorem update_noop (E : ℚ → ℚ) (t : ℚ) (recording : Bool) (i : ℕ)
    {net : Net} {n : IFneuron} (h : net[i]? = some n)
    (ht : t - n.t_ms < 0) :
    update E t recording i net = (net, none) := by
  unfold update
  rw [h]
  simp [ht]

theorem update_eq_pipeline (E : ℚ → ℚ) (t : ℚ) (recording : Bool) (i : ℕ)
    {net : Net} {n : IFneuron} (h : net[i]? = some n)
    (ht : ¬ t - n.t_ms < 0) :
    update E t recording i net =
      errSeq (update_Vm E t recording i
          (net.set i (direct_stim_step t n))) fun net =>
        errSeq (spontaneous_activity t i
            (detect_threshold t i net)) fun net =>
          finish_update t i net := by
  unfold update
  rw [h]
  simp [ht]

end IFneuron

namespace IFneuron

theorem detect_entry (t : ℚ) (i : ℕ) {net : Net} {m : IFneuron}
    (h : net[i]? = some m) :
    ∃ n2, (detect_threshold t i net)[i]? = some n2 ∧
      (detect_threshold t i net).length = net.length ∧
      n2.t_directstim_ms = m.t_directstim_ms ∧
      n2.in_absref = m.in_absref ∧
      n2.t_ms = m.t_ms ∧
      n2.tau_spont_mean_stdev_ms = m.tau_spont_mean_stdev_ms ∧
      (∃ u : List ℚ, (u = [] ∨ u = [t]) ∧ n2.t_act_ms = m.t_act_ms ++ u) ∧
      (m.in_absref = true → detect_threshold t i net = net) ∧
      (∀ j : ℕ, j ≠ i → (detect_threshold t i net)[j]? = net[j]?) := by
  rw [detect_threshold_run t i h]
  by_cases hc : m.in_absref = false ∧ m.Vact_mV ≤ m.Vm_mV
  · rw [if_pos hc]
    refine ⟨_, List.getElem?_set_eq_of_lt _ (getIdx_lt h), ?_, rfl, rfl, rfl,
      rfl, ⟨[t], Or.inr rfl, rfl⟩, ?_, ?_⟩
    · rw [List.length_set]
    · intro ha
      rw [ha] at hc
      simp at hc
    · intro j hj
      rw [List.getElem?_set_ne (Ne.symm hj)]
  · rw [if_neg hc]
    exact ⟨m, h, rfl, rfl, rfl, rfl, rfl, ⟨[], Or.inl rfl, by simp⟩,
      fun _ => rfl, fun _ _ => rfl⟩

theorem spontaneous_entry (t : ℚ) (i : ℕ) {net : Net} {m : IFneuron}
    (h : net[i]? = some m) :
    ∃ n2, ((spontaneous_activity t i net).1)[i]? = some n2 ∧
      ((spontaneous_activity t i net).1).length = net.length ∧
      n2.t_directstim_ms = m.t_directstim_ms ∧
      n2.in_absref = m.in_absref ∧
      n2.t_ms = m.t_ms ∧
      (∃ v : List ℚ, (v = [] ∨ v = [t]) ∧ n2.t_act_ms = m.t_act_ms ++ v) ∧
      (m.in_absref = true → spontaneous_activity t i net = (net, none)) ∧
      (∀ j : ℕ, j ≠ i →
        ((spontaneous_activity t i net).1)[j]? = net[j]?) := by
  rw [spontaneous_activity_run t i h]
  by_cases ha : m.in_absref = true
  · rw [if_pos ha]
    exact ⟨m, h, rfl, rfl, rfl, rfl, ⟨[], Or.inl rfl, by simp⟩,
      fun _ => rfl, fun _ _ => rfl⟩
  · rw [if_neg ha]
    by_cases hm0 : m.tau_spont_mean_stdev_ms.1 = 0
    · rw [if_pos hm0]
      exact ⟨m, h, rfl, rfl, rfl, rfl, ⟨[], Or.inl rfl, by simp⟩,
        fun hx => absurd hx ha, fun _ _ => rfl⟩
    · rw [if_neg hm0]
      by_cases hnext : m.t_spont_next ≤ t
      · rw [if_pos hnext]
        rcases hd : m.dt_spont_dist with _ | ⟨mu, sigma⟩
        · by_cases hnn : 0 ≤ m.t_spont_next
          · simp only [hnn, if_true]
            refine ⟨_, List.getElem?_set_eq_of_lt _ (getIdx_lt h),
              by rw [List.length_set], rfl, rfl, rfl,
              ⟨[t], Or.inr rfl, rfl⟩, fun hx => absurd hx ha,
              fun j hj => List.getElem?_set_ne (Ne.symm hj)⟩
          · simp only [hnn, if_false]
            refine ⟨_, List.getElem?_set_eq_of_lt _ (getIdx_lt h),
              by rw [List.length_set], rfl, rfl, rfl,
              ⟨[], Or.inl rfl, by simp⟩, fun hx => absurd hx ha,
              fun j hj => List.getElem?_set_ne (Ne.symm hj)⟩
        · by_cases hok : 0 < sigma ∧ 0 < mu
          · by_cases hnn : 0 ≤ m.t_spont_next
            · simp only [hnn, hok, true_and, and_true, if_true]
              refine ⟨_, List.getElem?_set_eq_of_lt _ (getIdx_lt h),
                by rw [List.length_set], rfl, rfl, rfl,
                ⟨[t], Or.inr rfl, rfl⟩, fun hx => absurd hx ha,
                fun j hj => List.getElem?_set_ne (Ne.symm hj)⟩
            · simp only [hnn, hok, true_and, and_true, if_false, if_true]
              refine ⟨_, List.getElem?_set_eq_of_lt _ (getIdx_lt h),
                by rw [List.length_set], rfl, rfl, rfl,
                ⟨[], Or.inl rfl, by simp⟩, fun hx => absurd hx ha,
                fun j hj => List.getElem?_set_ne (Ne.symm hj)⟩
          · by_cases hnn : 0 ≤ m.t_spont_next
            · simp only [hnn, hok, true_and, and_true, if_true, if_false]
              refine ⟨_, List.getElem?_set_eq_of_lt _ (getIdx_lt h),
                by rw [List.length_set], rfl, rfl, rfl,
                ⟨[t], Or.inr rfl, rfl⟩, fun hx => absurd hx ha,
                fun j hj => List.getElem?_set_ne (Ne.symm hj)⟩
            · simp only [hnn, hok, true_and, and_true, if_false]
              refine ⟨_, List.getElem?_set_eq_of_lt _ (getIdx_lt h),
                by rw [List.length_set], rfl, rfl, rfl,
                ⟨[], Or.inl rfl, by simp⟩, fun hx => absurd hx ha,
                fun j hj => List.getElem?_set_ne (Ne.symm hj)⟩
      · rw [if_neg hnext]
        exact ⟨m, h, rfl, rfl, rfl, rfl, ⟨[], Or.inl rfl, by simp⟩,
          fun hx => absurd hx ha, fun _ _ => rfl⟩

end IFneuron

namespace IFneuron

theorem direct_stim_step_t_ms (t : ℚ) (n : IFneuron) :
    (direct_stim_step t n).t_ms = n.t_ms := by
  unfold direct_stim_step
  split
  · rfl
  · split <;> rfl

theorem update_run (E : ℚ → ℚ) (t : ℚ) (recording : Bool) (i : ℕ)
    {net : Net} {n : IFneuron} (h : net[i]? = some n)
    (ht : ¬ t - n.t_ms < 0) :
    ∃ n2, ((update E t recording i net).1)[i]? = some n2 ∧
      ((update E t recording i net).1).length = net.length ∧
      n2.t_directstim_ms = (direct_stim_step t n).t_directstim_ms ∧
      n2.in_absref = (if (direct_stim_step t n).t_act_ms.isEmpty
        then (direct_stim_step t n).in_absref
        else decide
          (t - (direct_stim_step t n).t_act_ms.getLastD 0 ≤ 1)) ∧
      (∃ u v : List ℚ, (u = [] ∨ u = [t]) ∧ (v = [] ∨ v = [t]) ∧
        n2.t_act_ms = (direct_stim_step t n).t_act_ms ++ u ++ v) ∧
      ((update E t recording i net).2 = none → n2.t_ms = t) ∧
      ((update E t recording i net).2 ≠ none → n2.t_ms = n.t_ms) := by
  have hlen := getIdx_lt h
  have hn1 : (net.set i (direct_stim_step t n))[i]?
      = some (direct_stim_step t n) :=
    List.getElem?_set_eq_of_lt _ hlen
  rw [update_eq_pipeline E t recording i h ht]
  obtain ⟨nv, hv1, vAct, vStim, vTms, _, _, _, _, _, _, _, vAbs, _, vErr,
    vLen, vFrame⟩ := update_Vm_run E t recording hn1
  rw [errSeq_eq]
  cases hE : (update_Vm E t recording i
      (net.set i (direct_stim_step t n))).2 with
  | some e =>
    simp only [hE]
    refine ⟨nv, hv1, vLen.trans (by rw [List.length_set]), vStim, vAbs,
      ⟨[], [], Or.inl rfl, Or.inl rfl, by simp [vAct]⟩, ?_, ?_⟩
    · intro hx
      cases hx
    · intro _
      rw [vTms, direct_stim_step_t_ms]
  | none =>
    simp only [hE]
    obtain ⟨nd, hd1, dLen, dStim, dAbs, dTms, dTau, ⟨u, hu, hdu⟩, _, dFrame⟩ :=
      detect_entry t i hv1
    obtain ⟨ns, hs1, sLen, sStim, sAbs, sTms, ⟨v, hv2, hsv⟩, _, sFrame⟩ :=
      spontaneous_entry t i hd1
    rw [errSeq_eq]
    cases hS : (spontaneous_activity t i (detect_threshold t i
        (update_Vm E t recording i
          (net.set i (direct_stim_step t n))).1)).2 with
    | some e =>
      simp only [hS]
      refine ⟨ns, hs1, ?_, sStim.trans (dStim.trans vStim),
        sAbs.trans (dAbs.trans vAbs), ⟨u, v, hu, hv2, ?_⟩, ?_, ?_⟩
      · rw [sLen, dLen, vLen, List.length_set]
      · rw [hsv, hdu, vAct]
      · intro hx
        cases hx
      · intro _
        rw [sTms, dTms, vTms, direct_stim_step_t_ms]
    | none =>
      simp only [hS]
      rw [finish_update_run t i hs1]
      have hslen : i < ((spontaneous_activity t i (detect_threshold t i
          (update_Vm E t recording i
            (net.set i (direct_stim_step t n))).1)).1).length := by
        rw [sLen, dLen, vLen, List.length_set]
        exact hlen
      refine ⟨_, List.getElem?_set_eq_of_lt _ hslen, ?_,
        sStim.trans (dStim.trans vStim), sAbs.trans (dAbs.trans vAbs),
        ⟨u, v, hu, hv2, ?_⟩, fun _ => rfl, ?_⟩
      · rw [List.length_set, sLen, dLen, vLen, List.length_set]
      · show ns.t_act_ms = _
        rw [hsv, hdu, vAct]
      · intro hx
        exact absurd rfl hx

end IFneuron

namespace IFneuron

theorem update_absref_noop (E : ℚ → ℚ) (t : ℚ) (recording : Bool) (i : ℕ)
    {net : Net} {n : IFneuron} (h : net[i]? = some n)
    (ht : ¬ t - n.t_ms < 0)
    (hne : ¬ (direct_stim_step t n).t_act_ms.isEmpty)
    (hgap : t - (direct_stim_step t n).t_act_ms.getLastD 0 ≤ 1) :
    ∃ n2, ((update E t recording i net).1)[i]? = some n2 ∧
      n2.t_act_ms = (direct_stim_step t n).t_act_ms ∧
      n2.in_absref = true := by
  have hlen := getIdx_lt h
  have hn1 : (net.set i (direct_stim_step t n))[i]?
      = some (direct_stim_step t n) :=
    List.getElem?_set_eq_of_lt _ hlen
  rw [update_eq_pipeline E t recording i h ht]
  obtain ⟨nv, hv1, vAct, vStim, vTms, _, _, _, _, _, _, _, vAbs, _, vErr,
    vLen, vFrame⟩ := update_Vm_run E t recording hn1
  have habs : nv.in_absref = true := by
    rw [vAbs, if_neg (by simpa using hne)]
    exact decide_eq_true hgap
  rw [errSeq_eq]
  cases hE : (update_Vm E t recording i
      (net.set i (direct_stim_step t n))).2 with
  | some e =>
    simp only [hE]
    exact ⟨nv, hv1, vAct, habs⟩
  | none =>
    simp only [hE]
    obtain ⟨nd, hd1, dLen, dStim, dAbs, dTms, _, _, dNoop, dFrame⟩ :=
      detect_entry t i hv1
    rw [dNoop habs]
    obtain ⟨ns, hs1, sLen, sStim, sAbs, sTms, _, sNoop, sFrame⟩ :=
      spontaneous_entry t i hv1
    rw [sNoop habs]
    rw [errSeq_eq]
    simp only []
    rw [finish_update_run t i hv1]
    refine ⟨_, List.getElem?_set_eq_of_lt _ (by rw [vLen, List.length_set]; exact hlen), ?_, ?_⟩
    · show nv.t_act_ms = _
      exact vAct
    · show nv.in_absref = true
      exact habs

theorem update_frame (E : ℚ → ℚ) (t : ℚ) (recording : Bool) (i : ℕ)
    {net : Net} {n : IFneuron} (h : net[i]? = some n) :
    ∀ j : ℕ, j ≠ i →
      ((update E t recording i net).1)[j]?.map scrub
        = net[j]?.map scrub := by
  intro j hj
  by_cases ht : t - n.t_ms < 0
  · rw [update_noop E t recording i h ht]
  · have hlen := getIdx_lt h
    have hn1 : (net.set i (direct_stim_step t n))[i]?
        = some (direct_stim_step t n) :=
      List.getElem?_set_eq_of_lt _ hlen
    rw [update_eq_pipeline E t recording i h ht]
    obtain ⟨nv, hv1, _, _, _, _, _, _, _, _, _, _, _, _, _, _, vFrame⟩ :=
      update_Vm_run E t recording hn1
    have hbase : ((update_Vm E t recording i
        (net.set i (direct_stim_step t n))).1)[j]?.map scrub
          = net[j]?.map scrub := by
      rw [vFrame j hj, List.getElem?_set_ne (Ne.symm hj)]
    rw [errSeq_eq]
    cases hE : (update_Vm E t recording i
        (net.set i (direct_stim_step t n))).2 with
    | some e =>
      simp only [hE]
      exact hbase
    | none =>
      simp only [hE]
      obtain ⟨nd, hd1, _, _, _, _, _, _, _, dFrame⟩ := detect_entry t i hv1
      obtain ⟨ns, hs1, _, _, _, _, _, _, sFrame⟩ := spontaneous_entry t i hd1
      rw [errSeq_eq]
      cases hS : (spontaneous_activity t i (detect_threshold t i
          (update_Vm E t recording i
            (net.set i (direct_stim_step t n))).1)).2 with
      | some e =>
        simp only [hS]
        rw [sFrame j hj, dFrame j hj]
        exact hbase
      | none =>
        simp only [hS]
        rw [finish_update_run t i hs1, List.getElem?_set_ne (Ne.symm hj),
          sFrame j hj, dFrame j hj]
        exact hbase

end IFneuron

namespace IFneuron

/-- C1: for every neuron state (roster entry i) and every update time t,
update_Vm sets the membrane potential to exactly resting potential plus
the self-afterpotential term plus the after-hyperpolarization term plus
the postsynaptic sum, where the self-afterpotential term is the fixed
60.0 plateau when the neuron has spiked and the gap since its last spike
is at most 1.0 ms and 0 otherwise, the AHP term is the AHP peak times
E(-gap/tau_AHP) when the neuron has spiked and is not in absolute
refractory and 0 otherwise, and the refractory flag stored by the
self-afterpotential computation (recomputed exactly when the neuron has
spiked) is the flag left for threshold detection to read. -/
theorem C1_update_Vm_potential (E : ℚ → ℚ) (t : ℚ) (recording : Bool)
    (i : ℕ) (net : Net) (n : IFneuron) (h : net[i]? = some n) :
    ∃ n2, ((update_Vm E t recording i net).1)[i]? = some n2 ∧
      n2.Vm_mV = n.Vrest_mV + selfAfterpotentialTerm t n + ahpTerm E t n +
        pspSum E t n.tau_PSPr n.tau_PSPd n.vPSP n.receptors net ∧
      n2.in_absref = (if n.t_act_ms.isEmpty then n.in_absref
        else decide (spikeGap t n ≤ 1)) := by
  obtain ⟨n2, h1, _, _, _, _, _, _, _, _, _, _, h12, h13, _, _, _⟩ :=
    update_Vm_run E t recording h
  exact ⟨n2, h1, h13, h12⟩

/-- Witness for C1 at a concrete input: a neuron with a recorded spike
and a self-referencing receptor edge, evaluated at time 5. -/
theorem C1_update_Vm_potential_witness :
    ([nW1] : Net)[0]? = some nW1 ∧
    (∃ n2, ((update_Vm Ezero 5 false 0 [nW1]).1)[0]? = some n2 ∧
      n2.Vm_mV = nW1.Vrest_mV + selfAfterpotentialTerm 5 nW1 +
        ahpTerm Ezero 5 nW1 +
        pspSum Ezero 5 nW1.tau_PSPr nW1.tau_PSPd nW1.vPSP nW1.receptors
          [nW1] ∧
      n2.in_absref = (if nW1.t_act_ms.isEmpty then nW1.in_absref
        else decide (spikeGap 5 nW1 ≤ 1))) :=
  ⟨rfl, C1_update_Vm_potential Ezero 5 false 0 [nW1] nW1 rfl⟩

/-- C2: the dual-exponential kernel returns 0 when the time difference
is negative and amplitude * (E(-dt/decay) - E(-dt/rise)) otherwise; as
a Lean function it is pure by construction. -/
theorem C2_dblexp_contract (E : ℚ → ℚ) (amp tau_rise tau_decay tdiff : ℚ) :
    dblexp E amp tau_rise tau_decay tdiff =
      if tdiff < 0 then 0
      else amp * (E (-tdiff / tau_decay) - E (-tdiff / tau_rise)) := by
  unfold dblexp
  split
  · rfl
  · ring

end IFneuron

namespace IFneuron

theorem direct_stim_step_act (t : ℚ) (n : IFneuron) :
    (direct_stim_step t n).t_act_ms = n.t_act_ms ∨
    (∃ T rest, n.t_directstim_ms = T :: rest ∧ T ≤ t ∧
      (direct_stim_step t n).t_act_ms = n.t_act_ms ++ [T]) := by
  unfold direct_stim_step
  cases hsch : n.t_directstim_ms with
  | nil => exact Or.inl rfl
  | cons T rest =>
    by_cases hT : T ≤ t
    · exact Or.inr ⟨T, rest, rfl, hT, by simp [hT]⟩
    · simp [hT]

theorem sorted_append_le {l : List ℚ} {x : ℚ}
    (hs : List.Sorted (· ≤ ·) l) (hb : ∀ a ∈ l, a ≤ x) :
    List.Sorted (· ≤ ·) (l ++ [x]) := by
  refine List.pairwise_append.mpr ⟨hs, by simp, ?_⟩
  intro a ha b hbm
  simp only [List.mem_singleton] at hbm
  rw [hbm]
  exact hb a ha

theorem sorted_bound_app {l u : List ℚ} {t : ℚ}
    (hs : List.Sorted (· ≤ ·) l) (hb : ∀ a ∈ l, a ≤ t)
    (hu : u = [] ∨ u = [t]) :
    List.Sorted (· ≤ ·) (l ++ u) ∧ ∀ a ∈ l ++ u, a ≤ t := by
  rcases hu with rfl | rfl
  · simpa using ⟨hs, hb⟩
  · refine ⟨sorted_append_le hs hb, ?_⟩
    intro a ha
    rcases List.mem_append.mp ha with hx | hx
    · exact hb a hx
    · simp only [List.mem_singleton] at hx
      rw [hx]

theorem spont_mean0 (t : ℚ) (i : ℕ) {net : Net} {m : IFneuron}
    (h : net[i]? = some m) (hm : m.tau_spont_mean_stdev_ms.1 = 0) :
    spontaneous_activity t i net = (net, none) := by
  rw [spontaneous_activity_run t i h]
  by_cases ha : m.in_absref = true
  · rw [if_pos ha]
  · rw [if_neg ha, if_pos hm]

end IFneuron

namespace IFneuron

/-- C3 (amended): for every neuron state whose last update is no later
than t and whose direct-stimulation schedule has earliest entry T with
T at most t, update(t) removes exactly that one entry (the remaining
schedule is exactly the tail, even if further entries are also due) and
appends T itself — not t — to the spike sequence before threshold
detection or the spontaneous step can append anything (whatever they
append lands strictly after T).  The amendment adds the hypothesis that
the call is not discarded by the stale-time guard (t at least the last
update time), which the original claim omitted. -/
theorem C3_direct_stim_consumption (E : ℚ → ℚ) (t : ℚ) (recording : Bool)
    (i : ℕ) {net : Net} {n : IFneuron} {T : ℚ} {rest : List ℚ}
    (h : net[i]? = some n) (ht : n.t_ms ≤ t)
    (hsched : n.t_directstim_ms = T :: rest) (hT : T ≤ t) :
    ∃ n2, ((update E t recording i net).1)[i]? = some n2 ∧
      n2.t_directstim_ms = rest ∧
      ∃ u v : List ℚ, (u = [] ∨ u = [t]) ∧ (v = [] ∨ v = [t]) ∧
        n2.t_act_ms = (n.t_act_ms ++ [T]) ++ u ++ v := by
  have ht2 : ¬ t - n.t_ms < 0 := by
    rw [not_lt, sub_nonneg]
    exact ht
  have hds : direct_stim_step t n
      = { n with t_directstim_ms := rest,
                 t_act_ms := n.t_act_ms ++ [T] } := by
    unfold direct_stim_step
    rw [hsched]
    simp only []
    rw [if_pos hT]
  obtain ⟨n2, hent, _, hstim, _, ⟨u, v, hu, hv, hact⟩, _, _⟩ :=
    update_run E t recording i h ht2
  rw [hds] at hstim hact
  exact ⟨n2, hent, hstim, u, v, hu, hv, hact⟩

/-- C4 (amended): threshold detection records nothing at an update whose
time is within 1.0 ms of the last ENTRY of the spike sequence as it
stands after direct-stimulus consumption (the neuron's most recent
recorded spike in the code's sense, t_act_ms[-1]).  The spike sequence
after the whole update equals the sequence right after the
direct-stimulus phase: neither threshold detection nor the spontaneous
step appended.  The original claim's reading — the gap to the
chronologically most recent spike — fails when an overdue stimulus is
consumed late (see the counterexample). -/
theorem C4_refractory_no_spike (E : ℚ → ℚ) (t : ℚ) (recording : Bool)
    (i : ℕ) {net : Net} {n : IFneuron} (h : net[i]? = some n)
    (ht : n.t_ms ≤ t)
    (hne : ¬ (direct_stim_step t n).t_act_ms.isEmpty)
    (hgap : t - (direct_stim_step t n).t_act_ms.getLastD 0 ≤ 1) :
    ∃ n2, ((update E t recording i net).1)[i]? = some n2 ∧
      n2.t_act_ms = (direct_stim_step t n).t_act_ms := by
  obtain ⟨n2, hent, hact, _⟩ := update_absref_noop E t recording i h
    (by rw [not_lt, sub_nonneg]; exact ht) hne hgap
  exact ⟨n2, hent, hact⟩

/-- C5 (amended): after a non-discarded update(t) on a neuron that has
a recorded spike once direct stimulation is consumed, the refractory
flag is true exactly when t is within 1.0 ms of the last entry of the
spike sequence as of the potential-update phase — that is, before the
spikes that threshold detection or the spontaneous step may record in
the same call (the original claim's iff fails for those, see the
counterexample). -/
theorem C5_absref_flag (E : ℚ → ℚ) (t : ℚ) (recording : Bool)
    (i : ℕ) {net : Net} {n : IFneuron} (h : net[i]? = some n)
    (ht : n.t_ms ≤ t)
    (hne : ¬ (direct_stim_step t n).t_act_ms.isEmpty) :
    ∃ n2, ((update E t recording i net).1)[i]? = some n2 ∧
      (n2.in_absref = true ↔
        t - (direct_stim_step t n).t_act_ms.getLastD 0 ≤ 1) := by
  have ht2 : ¬ t - n.t_ms < 0 := by
    rw [not_lt, sub_nonneg]
    exact ht
  obtain ⟨n2, hent, _, _, habs, _, _, _⟩ := update_run E t recording i h ht2
  refine ⟨n2, hent, ?_⟩
  rw [habs, if_neg hne]
  exact ⟨of_decide_eq_true, fun hp => decide_eq_true hp⟩

/-- C6 (amended): one update step preserves sortedness of the spike
sequence provided any direct stimulus consumed at this step is itself
no earlier than every recorded spike; threshold and spontaneous appends
(always the current step time t) then also land in order, and every
entry stays bounded by t.  Without the added proviso the invariant
fails: an overdue stimulus is appended after later spikes (see the
counterexample). -/
theorem C6_spike_order (E : ℚ → ℚ) (t : ℚ) (recording : Bool)
    (i : ℕ) {net : Net} {n : IFneuron} (h : net[i]? = some n)
    (hsort : List.Sorted (· ≤ ·) n.t_act_ms)
    (hbound : ∀ a ∈ n.t_act_ms, a ≤ n.t_ms)
    (ht : n.t_ms ≤ t)
    (hstim : ∀ T rest, n.t_directstim_ms = T :: rest → T ≤ t →
      ∀ a ∈ n.t_act_ms, a ≤ T) :
    ∃ n2, ((update E t recording i net).1)[i]? = some n2 ∧
      List.Sorted (· ≤ ·) n2.t_act_ms ∧
      (∀ a ∈ n2.t_act_ms, a ≤ t) ∧
      ((update E t recording i net).2 = none → n2.t_ms = t) := by
  have ht2 : ¬ t - n.t_ms < 0 := by
    rw [not_lt, sub_nonneg]
    exact ht
  obtain ⟨n2, hent, _, _, _, ⟨u, v, hu, hv, hact⟩, hok, _⟩ :=
    update_run E t recording i h ht2
  have base : List.Sorted (· ≤ ·) (direct_stim_step t n).t_act_ms ∧
      ∀ a ∈ (direct_stim_step t n).t_act_ms, a ≤ t := by
    rcases direct_stim_step_act t n with hds | ⟨T, rest, hsch, hT, hds⟩
    · rw [hds]
      exact ⟨hsort, fun a ha => le_trans (hbound a ha) ht⟩
    · rw [hds]
      refine ⟨sorted_append_le hsort (hstim T rest hsch hT), ?_⟩
      intro a ha
      rcases List.mem_append.mp ha with hx | hx
      · exact le_trans (hbound a hx) ht
      · simp only [List.mem_singleton] at hx
        rw [hx]
        exact hT
  obtain ⟨s1, b1⟩ := sorted_bound_app base.1 base.2 hu
  obtain ⟨s2, b2⟩ := sorted_bound_app s1 b1 hv
  rw [← hact] at s2 b2
  exact ⟨n2, hent, s2, b2, hok⟩

/-- C7 (amended): an update step of roster entry i leaves every other
neuron unchanged except for the two per-call scratch caches the
postsynaptic sum writes on its source neurons (the _has_spiked flag and
the _dt_act_ms gap cache): after erasing those caches with scrub, every
entry other than i is exactly as before.  The original claim's
"writes no field" fails on those cache fields (see the
counterexample). -/
theorem C7_frame_cache_only (E : ℚ → ℚ) (t : ℚ) (recording : Bool)
    (i : ℕ) {net : Net} {n : IFneuron} (h : net[i]? = some n) :
    ∀ j : ℕ, j ≠ i →
      ((update E t recording i net).1)[j]?.map scrub
        = net[j]?.map scrub :=
  update_frame E t recording i h

/-- C8 (amended): after a successful update at time t1, a second update
with a strictly smaller time t2 is a complete no-op: it returns the
state unchanged and raises nothing.  The original claim's "t2 at most
t1" fails at t2 = t1, where the whole step body runs again (see the
counterexample). -/
theorem C8_noop_strict (E : ℚ → ℚ) (t1 t2 : ℚ) (r1 r2 : Bool) (i : ℕ)
    {net net1 : Net} {n : IFneuron} (h : net[i]? = some n)
    (h1 : update E t1 r1 i net = (net1, none)) (hlt : t2 < t1) :
    update E t2 r2 i net1 = (net1, none) := by
  by_cases ht : t1 - n.t_ms < 0
  · have hnoop := update_noop E t1 r1 i h ht
    rw [hnoop] at h1
    injection h1 with e1 _
    subst e1
    exact update_noop E t2 r2 i h (by linarith)
  · obtain ⟨n2, hent, _, _, _, _, hok, _⟩ := update_run E t1 r1 i h ht
    have hfst : (update E t1 r1 i net).1 = net1 := by rw [h1]
    have hsnd : (update E t1 r1 i net).2 = none := by rw [h1]
    have htms : n2.t_ms = t1 := hok hsnd
    rw [hfst] at hent
    exact update_noop E t2 r2 i hent (by rw [htms]; linarith)

/-- C9 (amended): configuring spontaneous activity fails during the
set_spontaneous_activity call itself only for a zero standard deviation
(the Python division by sigma raises ZeroDivisionError); for a strictly
negative standard deviation the call succeeds — scipy freezes the
distribution without validating it — and the failure surfaces only at
the first interval draw of the spontaneous-activity step, as a
domain-validation ValueError from rvs. -/
theorem C9_spont_config_errors (n : IFneuron) (mu sigma : ℚ) :
    (sigma = 0 →
      (set_spontaneous_activity n (mu, sigma)).2
        = some PyErr.zeroDivisionError) ∧
    (sigma < 0 →
      (set_spontaneous_activity n (mu, sigma)).2 = none ∧
      ∀ (t : ℚ) (i : ℕ) (net : Net) (n1 : IFneuron),
        net[i]? = some n1 → n1.dt_spont_dist = some (mu, sigma) →
        n1.in_absref = false → n1.tau_spont_mean_stdev_ms.1 ≠ 0 →
        n1.t_spont_next ≤ t →
        (spontaneous_activity t i net).2
          = some PyErr.valueErrorDomain) := by
  constructor
  · intro hs0
    simp [set_spontaneous_activity, hs0]
  · intro hneg
    have hne : sigma ≠ 0 := ne_of_lt hneg
    constructor
    · simp [set_spontaneous_activity, hne]
    · intro t i net n1 h hd ha hm hnext
      rw [spontaneous_activity_run t i h,
        if_neg (by simp [ha]), if_neg hm, if_pos hnext]
      simp only [hd]
      rw [if_neg (by rintro ⟨c, -⟩; exact absurd c (not_lt.mpr hneg.le))]

end IFneuron

namespace IFneuron

/-- C10: the constructor assigns no FIFO attribute, so on a freshly
constructed neuron the first update call (with any step time from 0 on,
so that the stale-time guard does not discard it) reaches the FIFO test
inside update_Vm and raises AttributeError; once the caller has
assigned a FIFO attribute from outside the class (here Python None, as
the driver does), the same update succeeds. -/
theorem C10_missing_FIFO (E : ℚ → ℚ) (id : String) (t : ℚ)
    (recording : Bool) (ht : 0 ≤ t) :
    (update E t recording 0 [mkIFneuron id]).2
        = some PyErr.attributeErrorFIFO ∧
    (update E t recording 0
        [{ mkIFneuron id with FIFO := some none }]).2 = none := by
  constructor
  · have h : ([mkIFneuron id] : Net)[0]? = some (mkIFneuron id) := rfl
    have ht2 : ¬ t - (mkIFneuron id).t_ms < 0 := by
      show ¬ t - 0 < 0
      simp only [sub_zero]
      exact not_lt.mpr ht
    rw [update_eq_pipeline E t recording 0 h ht2]
    have hn1 : (([mkIFneuron id] : Net).set 0
        (direct_stim_step t (mkIFneuron id)))[0]?
          = some (direct_stim_step t (mkIFneuron id)) := rfl
    obtain ⟨nv, hv1, _, _, _, _, _, _, _, _, _, _, _, _, vErr, _, _⟩ :=
      update_Vm_run E t recording hn1
    rw [errSeq_eq, vErr]
    rfl
  · have h : ([{ mkIFneuron id with FIFO := some none }] : Net)[0]?
        = some { mkIFneuron id with FIFO := some none } := rfl
    have ht2 : ¬ t - ({ mkIFneuron id with FIFO := some none }).t_ms < 0 := by
      show ¬ t - 0 < 0
      simp only [sub_zero]
      exact not_lt.mpr ht
    rw [update_eq_pipeline E t recording 0 h ht2]
    have hn1 : (([{ mkIFneuron id with FIFO := some none }] : Net).set 0
        (direct_stim_step t { mkIFneuron id with FIFO := some none }))[0]?
          = some (direct_stim_step t
              { mkIFneuron id with FIFO := some none }) := rfl
    obtain ⟨nv, hv1, _, _, _, _, _, vTau, _, _, _, _, _, _, vErr, _, _⟩ :=
      update_Vm_run E t recording hn1
    have hfe : fifoErr (direct_stim_step t
        { mkIFneuron id with FIFO := some none }) = none := rfl
    rw [errSeq_eq, vErr, hfe]
    simp only []
    obtain ⟨nd, hd1, _, _, _, _, dTau, _, _, _⟩ :=
      detect_entry t 0 hv1
    have hdTau : nd.tau_spont_mean_stdev_ms.1 = 0 := by
      rw [dTau, vTau]
      rfl
    rw [spont_mean0 t 0 hd1 hdTau]
    rw [errSeq_eq]
    simp only []
    rw [finish_update_run t 0 hd1]

end IFneuron

namespace IFneuron

section

attribute [local semireducible] Rat.add Rat.sub Rat.mul Rat.inv
  Rat.ofScientific

/-- Counterexample to C3 as stated: the schedule holds the overdue entry
3 and the update time 5 satisfies 3 at most 5, yet the call — discarded by
the stale-time guard because the neuron was last updated at 100 —
removes nothing and records nothing. -/
theorem C3_counterexample :
    ((update Ezero 5 false 0 [nC3]).1)[0]?.map
        (fun x => x.t_directstim_ms) = some [3] ∧
    ((update Ezero 5 false 0 [nC3]).1)[0]?.map
        (fun x => x.t_act_ms) = some [] := by
  exact ⟨by decide, by decide⟩

/-- Witness for C3 (amended) at a concrete input: schedule [2, 7] at
time 5 — entry 2 is removed, 7 stays although also due. -/
theorem C3_direct_stim_consumption_witness :
    ([nW3] : Net)[0]? = some nW3 ∧ nW3.t_ms ≤ 5 ∧
    nW3.t_directstim_ms = 2 :: [7] ∧ (2 : ℚ) ≤ 5 ∧
    (∃ n2, ((update Ezero 5 false 0 [nW3]).1)[0]? = some n2 ∧
      n2.t_directstim_ms = [7] ∧
      ∃ u v : List ℚ, (u = [] ∨ u = [5]) ∧ (v = [] ∨ v = [5]) ∧
        n2.t_act_ms = (nW3.t_act_ms ++ [2]) ++ u ++ v) :=
  ⟨rfl, by decide, rfl, by decide,
    C3_direct_stim_consumption Ezero 5 false 0 rfl (by decide) rfl
      (by decide)⟩

/-- Counterexample to C4 as stated: the neuron spikes at 20 (threshold,
after the stimulus scheduled at 1 is consumed); at the update at 21 the
overdue stimulus 2 is consumed, making the last ENTRY of the sequence 2
(gap 19, not refractory), and threshold detection appends 21 — a second
threshold-recorded spike exactly 1.0 ms after the chronologically most
recent spike 20, inside the claimed window.  Spontaneous activity is
disabled and the schedule is exhausted, so 21 can only come from
threshold detection. -/
theorem C4_counterexample :
    ((update Ezero 21 false 0 ((update Ezero 20 false 0 [nC4]).1)).1)[0]?.map
        (fun x => x.t_act_ms) = some [1, 20, 2, 21] ∧
    ((update Ezero 20 false 0 [nC4]).1)[0]?.map
        (fun x => x.t_act_ms) = some [1, 20] ∧
    ((update Ezero 21 false 0 ((update Ezero 20 false 0 [nC4]).1)).1)[0]?.map
        (fun x => x.t_directstim_ms) = some [] ∧
    (21 : ℚ) - 20 ≤ 1 := by
  exact ⟨by decide, by decide, by decide, by decide⟩

/-- Witness for C4 (amended) at a concrete input: a neuron that spiked
at 9, updated at 10 (gap 1.0, refractory) with resting potential -40 so
the computed potential 20 is far above the -50 threshold — and still
nothing is appended. -/
theorem C4_refractory_no_spike_witness :
    ([nW4] : Net)[0]? = some nW4 ∧ nW4.t_ms ≤ 10 ∧
    ¬ (direct_stim_step 10 nW4).t_act_ms.isEmpty ∧
    10 - (direct_stim_step 10 nW4).t_act_ms.getLastD 0 ≤ 1 ∧
    ((update Ezero 10 false 0 [nW4]).1)[0]?.map (fun x => x.Vm_mV)
        = some 20 ∧
    (∃ n2, ((update Ezero 10 false 0 [nW4]).1)[0]? = some n2 ∧
      n2.t_act_ms = (direct_stim_step 10 nW4).t_act_ms) :=
  ⟨rfl, by decide, by decide, by decide, by decide,
    C4_refractory_no_spike Ezero 10 false 0 rfl (by decide) (by decide)
      (by decide)⟩

/-- Counterexample to C5 as stated: a neuron whose resting potential
sits above threshold fires at its first update at t = 5; after the
completed call the most recent recorded spike is 5 (gap 0, within
1.0 ms), yet the refractory flag reads false, because the flag was
computed before threshold detection appended the spike. -/
theorem C5_counterexample :
    ((update Ezero 5 false 0 [nC5]).1)[0]?.map
        (fun x => (x.t_act_ms, x.in_absref)) = some ([5], false) ∧
    (5 : ℚ) - 5 ≤ 1 := by
  exact ⟨by decide, by decide⟩

/-- Witness for C5 (amended) at a concrete input: a neuron that spiked
at 3, updated at 10 — the flag is false and the gap 7 indeed exceeds
1.0 ms. -/
theorem C5_absref_flag_witness :
    ([nW5] : Net)[0]? = some nW5 ∧ nW5.t_ms ≤ 10 ∧
    ¬ (direct_stim_step 10 nW5).t_act_ms.isEmpty ∧
    (∃ n2, ((update Ezero 10 false 0 [nW5]).1)[0]? = some n2 ∧
      (n2.in_absref = true ↔
        10 - (direct_stim_step 10 nW5).t_act_ms.getLastD 0 ≤ 1)) :=
  ⟨rfl, by decide, by decide,
    C5_absref_flag Ezero 10 false 0 rfl (by decide) (by decide)⟩

/-- Counterexample to C6 as stated: with schedule [1, 2] attached in
ascending order before the run and update times 10 then 11
(non-decreasing), the recorded sequence ends up [1, 10, 2, 11] — the
overdue stimulus 2 is appended after the threshold spike 10, so the
sequence is not sorted. -/
theorem C6_counterexample :
    ((update Ezero 11 false 0 ((update Ezero 10 false 0 [nC6]).1)).1)[0]?.map
        (fun x => x.t_act_ms) = some [1, 10, 2, 11] ∧
    ¬ List.Sorted (· ≤ ·) ([1, 10, 2, 11] : List ℚ) := by
  exact ⟨by decide, by decide⟩

/-- Witness for C6 (amended) at a concrete input: sorted history [3, 4],
last update 4, a timely stimulus at 5, step time 6. -/
theorem C6_spike_order_witness :
    ([nW6] : Net)[0]? = some nW6 ∧
    List.Sorted (· ≤ ·) nW6.t_act_ms ∧
    (∀ a ∈ nW6.t_act_ms, a ≤ nW6.t_ms) ∧ nW6.t_ms ≤ 6 ∧
    (∃ n2, ((update Ezero 6 false 0 [nW6]).1)[0]? = some n2 ∧
      List.Sorted (· ≤ ·) n2.t_act_ms ∧
      (∀ a ∈ n2.t_act_ms, a ≤ 6) ∧
      ((update Ezero 6 false 0 [nW6]).2 = none → n2.t_ms = 6)) :=
  ⟨rfl, by decide, by decide, by decide,
    C6_spike_order Ezero 6 false 0 rfl (by decide) (by decide) (by decide)
      (by
        intro T rest hTr hT
        have h5 : ([5] : List ℚ) = T :: rest := hTr
        injection h5 with e1 e2
        subst e1
        decide)⟩

/-- Counterexample to C7 as stated: updating the receiving neuron at
index 1 writes the source neuron's _has_spiked cache (false before,
true after) — a field write on a neuron other than the one being
stepped. -/
theorem C7_counterexample :
    ((update Ezero 5 false 1 netC7).1)[0]?.map (fun x => x.hs_cache)
        = some true ∧
    netC7[0]?.map (fun x => x.hs_cache) = some false := by
  exact ⟨by decide, by decide⟩

/-- Witness for C7 (amended) at a concrete input: the two-neuron roster,
stepping entry 1. -/
theorem C7_frame_cache_only_witness :
    netC7[1]? = some nC7 ∧
    (∀ j : ℕ, j ≠ 1 →
      ((update Ezero 5 false 1 netC7).1)[j]?.map scrub
        = netC7[j]?.map scrub) :=
  ⟨rfl, C7_frame_cache_only Ezero 5 false 1 rfl⟩

/-- Counterexample to C8 as stated: calling update twice with the SAME
time (t2 = t1 = 5, allowed by the claim's t2 at most t1) and recording on
runs the whole step body again — the recording buffer grows from [5]
to [5, 5], so the state is not left unchanged. -/
theorem C8_counterexample :
    ((update Ezero 5 true 0 ((update Ezero 5 true 0 [nC8]).1)).1)[0]?.map
        (fun x => x.t_recorded_ms) = some [5, 5] ∧
    ((update Ezero 5 true 0 [nC8]).1)[0]?.map
        (fun x => x.t_recorded_ms) = some [5] := by
  exact ⟨by decide, by decide⟩

/-- Witness for C8 (amended) at a concrete input: a successful update at
5 followed by one at 3 returns the state unchanged with no error. -/
theorem C8_noop_strict_witness :
    ([nW8] : Net)[0]? = some nW8 ∧ (3 : ℚ) < 5 ∧
    update Ezero 3 true 0 ((update Ezero 5 true 0 [nW8]).1)
      = ((update Ezero 5 true 0 [nW8]).1, none) :=
  ⟨rfl, by decide,
    C8_noop_strict Ezero 5 3 true true 0
      (show ([nW8] : Net)[0]? = some nW8 from rfl)
      (show update Ezero 5 true 0 [nW8]
          = ((update Ezero 5 true 0 [nW8]).1, none) from rfl)
      (by decide)⟩

/-- Counterexample to C9 as stated: configuring with standard deviation
-1 (negative) raises nothing during the set_spontaneous_activity call
itself. -/
theorem C9_counterexample :
    (set_spontaneous_activity (mkIFneuron ("S9")) (5, -1)).2 = none := by
  decide

/-- Witness for C9 (amended) at concrete inputs: sigma = 0 errors at
configuration; sigma = -1 configures silently and the first draw of the
spontaneous step errors. -/
theorem C9_spont_config_errors_witness :
    (set_spontaneous_activity (mkIFneuron ("S0")) (5, 0)).2
        = some PyErr.zeroDivisionError ∧
    (set_spontaneous_activity (mkIFneuron ("S1")) (5, -1)).2 = none ∧
    (spontaneous_activity 0 0 [nW9]).2 = some PyErr.valueErrorDomain :=
  ⟨(C9_spont_config_errors (mkIFneuron ("S0")) 5 0).1 rfl,
    ((C9_spont_config_errors (mkIFneuron ("S1")) 5 (-1)).2 (by decide)).1,
    ((C9_spont_config_errors (mkIFneuron ("S1")) 5 (-1)).2 (by decide)).2
      0 0 [nW9] nW9 rfl rfl rfl (by decide) (by decide)⟩

/-- Witness for C10 at a concrete input: the fresh neuron errors at its
first update at t = 1; with FIFO assigned the same update succeeds. -/
theorem C10_missing_FIFO_witness :
    (0 : ℚ) ≤ 1 ∧
    ((update Ezero 1 false 0 [mkIFneuron ("F10")]).2
        = some PyErr.attributeErrorFIFO ∧
      (update Ezero 1 false 0
          [{ mkIFneuron ("F10") with FIFO := some none }]).2 = none) :=
  ⟨by decide, C10_missing_FIFO Ezero ("F10") 1 false (by decide)⟩

/-- Witness for C1: the concrete conclusion of the C1 witness statement,
checked by evaluation as well — the potential lands exactly at the
resting potential under the zero exponential. -/
theorem C1_concrete_value :
    ((update_Vm Ezero 5 false 0 [nW1]).1)[0]?.map (fun x => x.Vm_mV)
        = some ((-60 : ℚ)) := by
  decide

end

end IFneuron
